import Mathlib

/-!
Shallow embedding of the messaging / presence core of the matrimony backend
(src/socket/socketHandler.js, src/controllers/chatController.js,
src/models/Message.js, models/Conversation.js, src/utils/entitlements.js,
utils/constants.js).

Identifiers: user ids are `String` (Mongo ObjectId strings), conversation and
message ids are `Nat`.  Timestamps (`Date`) are `Nat` milliseconds.  JS values
that may be `undefined` are `Option`.
-/

namespace Matrimony

/-- LIMITS.MAX_MESSAGE_LENGTH from utils/constants.js. -/
def MAX_MESSAGE_LENGTH : Nat := 2000

/-- Subscription subdocument of the User model, as consumed by
`hasPremiumAccess` (utils/entitlements.js). -/
structure Subscription where
  isActive : Option Bool
  endDate : Option Nat
  plan : Option String
  deriving Repr, DecidableEq

/-- The account-status snapshot of a user as selected by the socket handler
and entitlement check: isSuspended, isActive, isPremium, premiumExpiry,
subscription.  `isActive : Option Bool` models the JS field possibly being
undefined (the code tests `isActive === false`). -/
structure UserSnap where
  isSuspended : Bool
  isActive : Option Bool
  isPremium : Bool
  premiumExpiry : Option Nat
  subscription : Option Subscription
  deriving Repr, DecidableEq

/-- utils/entitlements.js hasPremiumAccess.  `now` is the current time; a
`none` user (JS `!user`) has no access.  Mirrors the JS chain: an active,
unexpired subscription wins when a paid snapshot exists; otherwise a future
`premiumExpiry` grants access; a bare `isPremium` without expiry grants
nothing. -/
def hasPremiumAccess (now : Nat) (user : Option UserSnap) : Bool :=
  match user with
  | none => false
  | some u =>
    let endDate : Option Nat := u.subscription.bind (·.endDate)
    let subActive : Bool :=
      (u.subscription.bind (·.isActive) == some true) &&
      endDate.isSome && decide (now < endDate.getD 0)
    let hasPaidSnapshot : Bool :=
      (u.subscription.bind (·.plan) == some "monthly") ||
      (u.subscription.bind (·.plan) == some "yearly") ||
      endDate.isSome
    if hasPaidSnapshot then subActive
    else if (match u.premiumExpiry with
             | some e => decide (now < e)
             | none => false) then true
    else if u.isPremium && u.premiumExpiry.isSome then
      decide (now < u.premiumExpiry.getD 0)
    else false

/-- models/Message.js document. -/
structure Msg where
  id : Nat
  conversationId : Nat
  senderId : String
  receiverId : String
  content : String
  messageType : String
  isRead : Bool
  readAt : Option Nat
  isDeleted : Bool
  deletedAt : Option Nat
  createdAt : Nat
  deriving Repr, DecidableEq

/-- lastMessage subdocument of models/Conversation.js (messageType defaults
to "text" when the update omits it, per the schema default). -/
structure LastMsg where
  content : String
  senderId : String
  timestamp : Nat
  messageType : String
  deriving Repr, DecidableEq

/-- models/Conversation.js document.  `unreadCount` is the Mongoose
Map from participant-id string to number, embedded as an association list. -/
structure Conv where
  id : Nat
  participants : List String
  lastMessage : Option LastMsg
  unreadCount : List (String × Nat)
  isBlocked : Bool
  blockedBy : Option String
  createdAt : Nat
  updatedAt : Nat
  deriving Repr, DecidableEq

/-- Persistent store visible to the chat operations: the User collection as a
lookup, and the Conversation / Message collections as lists.  `nextMsgId` /
`nextConvId` model Mongo object-id generation at create. -/
structure ChatDb where
  users : String → Option UserSnap
  convs : List Conv
  msgs : List Msg
  nextMsgId : Nat
  nextConvId : Nat

/-- Mongoose `Map.get` with the controller's default-to-0 coercion
(chatController.js getUnreadForUser). -/
def getUnreadForUser (unreadCount : List (String × Nat)) (userId : String) : Nat :=
  match unreadCount.find? (fun p => p.1 == userId) with
  | some p => p.2
  | none => 0

/-- MongoDB `$inc` on `unreadCount.<key>`: increments the existing entry or
creates it at 1. -/
def incUnread : List (String × Nat) → String → List (String × Nat)
  | [], u => [(u, 1)]
  | p :: rest, u => if p.1 = u then (p.1, p.2 + 1) :: rest else p :: incUnread rest u

/-- MongoDB `$set` on `unreadCount.<key>`: overwrites the existing entry or
creates it. -/
def setUnread : List (String × Nat) → String → Nat → List (String × Nat)
  | [], u, n => [(u, n)]
  | p :: rest, u, n => if p.1 = u then (p.1, n) :: rest else p :: setUnread rest u n

/-- chatController.js pickOtherUserId: the first participant differing from
`me`. -/
def pickOtherUserId (participants : List String) (me : String) : Option String :=
  participants.find? (fun p => p ≠ me)

example : getUnreadForUser (incUnread [("a", 2)] "b") "b" = 1 := by decide
example : getUnreadForUser (setUnread [("a", 2), ("b", 7)] "b" 0) "b" = 0 := by decide
example :
    hasPremiumAccess 10 (some ⟨false, some true, false, some 20, none⟩) = true := by decide
example :
    hasPremiumAccess 10 (some ⟨false, some true, true, none, none⟩) = false := by decide
example :
    hasPremiumAccess 10
      (some ⟨false, some true, false, none, some ⟨some true, some 20, some "monthly"⟩⟩)
      = true := by decide

/-- JS String.prototype.trim over the character list: drop whitespace from
both ends.  (Lean's String.trim is extensionally the same but does not
kernel-reduce; this executable copy is used throughout the embedding.) -/
def trimChars (l : List Char) : List Char :=
  ((l.dropWhile Char.isWhitespace).reverse.dropWhile Char.isWhitespace).reverse

/-- JS `content.trim()`. -/
def jsTrim (s : String) : String :=
  String.mk (trimChars s.toList)

example : jsTrim "  " = "" := by decide
example : jsTrim " hi " = "hi" := by decide

/-- The distinct failure reasons emitted by the socket send_message handler
(socketHandler.js), one constructor per `fail(...)` message. -/
inductive SendErr
  | invalidConversationId
  | invalidReceiverId
  | contentNotString
  | emptyMessage
  | messageTooLong
  | senderNotFound
  | senderSuspended
  | senderInactive
  | premiumRequired
  | receiverNotFound
  | receiverUnavailable
  | conversationNotFound
  | conversationBlocked
  | notAuthorized
  deriving Repr, DecidableEq

/-- Payload of the send_message socket event.  `content : Option String`
models the `typeof content !== 'string'` check (a non-string payload is
`none`); absent ids are `none`. -/
structure SendInput where
  conversationId : Option Nat
  receiverId : Option String
  content : Option String
  messageType : Option String
  deriving Repr, DecidableEq

/-- Data surviving socket send validation, feeding the persistence step. -/
structure ValidSend where
  cid : Nat
  rid : String
  trimmed : String
  messageType : String
  deriving Repr, DecidableEq

/-- The socket send_message validation chain after the two id-format guards,
in source order: content string / non-empty / length, sender lookup /
suspended / inactive / entitlement, receiver lookup / status, conversation
lookup / blocked, participant membership. -/
def sendOutcome (db : ChatDb) (now : Nat) (userId : String) (cid : Nat)
    (rid : String) (content : Option String) (messageType : Option String) :
    Except SendErr ValidSend :=
  match content with
  | none => .error .contentNotString
  | some c =>
    let trimmed := jsTrim c
    if trimmed = "" then .error .emptyMessage
    else if MAX_MESSAGE_LENGTH < trimmed.length then .error .messageTooLong
    else match db.users userId with
    | none => .error .senderNotFound
    | some sender =>
      if sender.isSuspended then .error .senderSuspended
      else if sender.isActive == some false then .error .senderInactive
      else if !hasPremiumAccess now (some sender) then .error .premiumRequired
      else match db.users rid with
      | none => .error .receiverNotFound
      | some receiver =>
        if receiver.isSuspended || receiver.isActive == some false then
          .error .receiverUnavailable
        else match db.convs.find? (fun conv => conv.id == cid) with
        | none => .error .conversationNotFound
        | some conversation =>
          if conversation.isBlocked then .error .conversationBlocked
          else
            let senderOk := conversation.participants.contains userId
            let receiverOk := conversation.participants.contains rid
            if !senderOk || !receiverOk then .error .notAuthorized
            else .ok ⟨cid, rid, trimmed, messageType.getD "text"⟩

/-- Full socket send_message validation: the two id guards, then the chain
above (socketHandler.js send_message handler, up to Message.create). -/
def socketSendCheck (db : ChatDb) (now : Nat) (userId : String)
    (inp : SendInput) : Except SendErr ValidSend :=
  match inp.conversationId with
  | none => .error .invalidConversationId
  | some cid =>
    match inp.receiverId with
    | none => .error .invalidReceiverId
    | some rid => sendOutcome db now userId cid rid inp.content inp.messageType

/-- Message.create of a validated socket send: the persisted document with
schema defaults (isRead false, isDeleted false, createdAt now). -/
def mkMessage (mid : Nat) (v : ValidSend) (senderId : String) (now : Nat) : Msg :=
  { id := mid
    conversationId := v.cid
    senderId := senderId
    receiverId := v.rid
    content := v.trimmed
    messageType := v.messageType
    isRead := false
    readAt := none
    isDeleted := false
    deletedAt := none
    createdAt := now }

/-- Step 1 of the socket send persistence: `await Message.create(...)`. -/
def persistMessage (db : ChatDb) (v : ValidSend) (senderId : String)
    (now : Nat) : ChatDb :=
  { db with
    msgs := db.msgs ++ [mkMessage db.nextMsgId v senderId now]
    nextMsgId := db.nextMsgId + 1 }

/-- Step 2 of the socket send persistence:
`await Conversation.findByIdAndUpdate(conversationId, { lastMessage, updatedAt, $inc unreadCount.receiver })`.
The lastMessage subdocument takes the schema default messageType "text"
because the socket update omits that field. -/
def updateConvAfterSend (db : ChatDb) (v : ValidSend) (senderId : String)
    (now : Nat) : ChatDb :=
  { db with
    convs := db.convs.map (fun c =>
      if c.id == v.cid then
        { c with
          lastMessage := some ⟨v.trimmed, senderId, now, "text"⟩
          updatedAt := now
          unreadCount := incUnread c.unreadCount v.rid }
      else c) }

/-- The two sequential persistence steps of a validated socket send.  The
code has no transaction: `step2ok = false` models the second await failing
(or being observed before it runs), leaving only step 1 applied. -/
def sendPersist (db : ChatDb) (v : ValidSend) (senderId : String) (now : Nat)
    (step2ok : Bool) : ChatDb :=
  let db1 := persistMessage db v senderId now
  if step2ok then updateConvAfterSend db1 v senderId now else db1

/-- The socket send_message handler as a state transformer: on a validation
failure the handler returns before any write (state unchanged, error emitted
to the sender); on success both persistence steps run. -/
def socketSend (db : ChatDb) (now : Nat) (userId : String) (inp : SendInput) :
    ChatDb × Option SendErr :=
  match socketSendCheck db now userId inp with
  | .error e => (db, some e)
  | .ok v => (sendPersist db v userId now true, none)

example :
    (socketSend { users := fun _ => none, convs := [], msgs := [],
                  nextMsgId := 0, nextConvId := 0 } 0 "s"
      ⟨some 1, some "r", some "  ", none⟩).2 = some .emptyMessage := by decide

/-- Message.updateMany of mark_read: flag every unread message of the
conversation addressed to `userId` as read with a read timestamp. -/
def markReadMsgs (msgs : List Msg) (cid : Nat) (userId : String) (now : Nat) :
    List Msg :=
  msgs.map fun m =>
    if m.conversationId == cid && m.receiverId == userId && !m.isRead then
      { m with isRead := true, readAt := some now }
    else m

/-- Conversation.findByIdAndUpdate of mark_read: `$set unreadCount.user := 0`
(no save hook runs, so updatedAt is untouched). -/
def markReadConvs (convs : List Conv) (cid : Nat) (userId : String) :
    List Conv :=
  convs.map fun c =>
    if c.id == cid then { c with unreadCount := setUnread c.unreadCount userId 0 }
    else c

/-- The mark_read handler (socketHandler.js; chatController.js markAsRead has
the same reads and writes): authorize by participant lookup, else flag
messages and zero the caller's counter.  The Bool reports whether the
conversation was found (false mirrors the error reply). -/
def markRead (db : ChatDb) (userId : String) (cid : Nat) (now : Nat) :
    ChatDb × Bool :=
  match db.convs.find? (fun c => c.id == cid && c.participants.contains userId) with
  | none => (db, false)
  | some _ =>
    ({ db with
       msgs := markReadMsgs db.msgs cid userId now
       convs := markReadConvs db.convs cid userId }, true)

/-- chatController.js deleteMessage: find the message owned by the requester
(`findOne {_id, senderId}`), else 404; on a hit set only the soft-delete flag
and timestamp and save.  `none` is the 404 path. -/
def deleteMessage (msgs : List Msg) (requester : String) (mid : Nat)
    (now : Nat) : Option (List Msg) :=
  match msgs.find? (fun m => m.id == mid && m.senderId == requester) with
  | none => none
  | some _ =>
    some (msgs.map fun m =>
      if m.id == mid && m.senderId == requester then
        { m with isDeleted := true, deletedAt := some now }
      else m)

/-- chatController.js unblockUser: findOne with `blockedBy: requester` over
the pair's conversations; only a hit is cleared and saved. -/
def unblockUser (convs : List Conv) (requester target : String) : List Conv :=
  match convs.find? (fun c =>
      c.participants.contains requester && c.participants.contains target &&
      c.blockedBy == some requester) with
  | none => convs
  | some c0 =>
    convs.map fun c =>
      if c.id == c0.id then { c with isBlocked := false, blockedBy := none }
      else c

/-- Failure replies of the HTTP sendMessage controller
(chatController.js), one constructor per early return.
`missingReceiver` models Mongoose rejecting `Message.create` when
`pickOtherUserId` returns null (receiverId is a required field). -/
inductive HttpErr
  | contentRequired
  | messageTooLong
  | premiumRequired
  | receiverRequired
  | selfMessage
  | conversationNotFound
  | conversationBlocked
  | missingReceiver
  deriving Repr, DecidableEq

/-- Conversation resolution of the HTTP sendMessage: an explicit id is looked
up among the caller's conversations; otherwise the pair's conversation is
found or created (participants `$all`, then `Conversation.create`). -/
def httpResolveConv (db : ChatDb) (now : Nat) (userId : String)
    (conversationId : Option Nat) (receiverId : Option String) :
    ChatDb × Except HttpErr Conv :=
  match conversationId with
  | some cid =>
    match db.convs.find? (fun c => c.id == cid && c.participants.contains userId) with
    | none => (db, .error .conversationNotFound)
    | some c => (db, .ok c)
  | none =>
    match receiverId with
    | none => (db, .error .receiverRequired)
    | some rid =>
      if rid = userId then (db, .error .selfMessage)
      else
        match db.convs.find? (fun c =>
            c.participants.contains userId && c.participants.contains rid) with
        | some c => (db, .ok c)
        | none =>
          let newConv : Conv :=
            ⟨db.nextConvId, [userId, rid], none, [], false, none, now, now⟩
          ({ db with convs := db.convs ++ [newConv],
                     nextConvId := db.nextConvId + 1 }, .ok newConv)

/-- chatController.js sendMessage (HTTP fallback): trim and length checks,
entitlement, conversation resolution (either an id or a bare receiver),
blocked check, then Message.create and conversation.save (lastMessage with
the request's messageType, unreadCount of the other participant bumped via
get/set, updatedAt refreshed by the pre-save hook). -/
def httpSendMessage (db : ChatDb) (now : Nat) (userId : String)
    (conversationId : Option Nat) (receiverId : Option String)
    (content : Option String) (messageType : String) :
    ChatDb × Except HttpErr Msg :=
  let trimmed := match content with | some c => jsTrim c | none => ""
  if trimmed = "" then (db, .error .contentRequired)
  else if MAX_MESSAGE_LENGTH < trimmed.length then (db, .error .messageTooLong)
  else if !hasPremiumAccess now (db.users userId) then (db, .error .premiumRequired)
  else
    match httpResolveConv db now userId conversationId receiverId with
    | (db1, .error e) => (db1, .error e)
    | (db1, .ok conversation) =>
      if conversation.isBlocked then (db1, .error .conversationBlocked)
      else
        match pickOtherUserId conversation.participants userId with
        | none => (db1, .error .missingReceiver)
        | some actualReceiverId =>
          let message : Msg :=
            { id := db1.nextMsgId
              conversationId := conversation.id
              senderId := userId
              receiverId := actualReceiverId
              content := trimmed
              messageType := messageType
              isRead := false
              readAt := none
              isDeleted := false
              deletedAt := none
              createdAt := now }
          let curr := getUnreadForUser conversation.unreadCount actualReceiverId
          let updated : Conv :=
            { conversation with
              lastMessage := some ⟨trimmed, userId, now, messageType⟩
              unreadCount := setUnread conversation.unreadCount actualReceiverId (curr + 1)
              updatedAt := now }
          ({ db1 with
             msgs := db1.msgs ++ [message]
             nextMsgId := db1.nextMsgId + 1
             convs := db1.convs.map (fun c => if c.id == conversation.id then updated else c) },
           .ok message)

/-- The in-memory presence registry `onlineUsers`: a Map from user-id string
to the Set of live socket ids, embedded as an association list with unique
keys and duplicate-free handle lists. -/
abbrev Registry := List (String × List String)

/-- Map.get. -/
def regGet (reg : Registry) (u : String) : Option (List String) :=
  (reg.find? (fun p => p.1 == u)).map (·.2)

/-- Map.set: replace the existing entry or append a new one. -/
def regSet : Registry → String → List String → Registry
  | [], u, hs => [(u, hs)]
  | p :: rest, u, hs => if p.1 = u then (u, hs) :: rest else p :: regSet rest u hs

/-- Map.delete. -/
def regDel : Registry → String → Registry
  | [], _ => []
  | p :: rest, u => if p.1 = u then rest else p :: regDel rest u

/-- Set.add: no-op when the handle is already present. -/
def setAdd (l : List String) (h : String) : List String :=
  if l.contains h then l else l ++ [h]

/-- socketHandler.js addSocket: insert the handle into the user's set
(creating the entry) and return the resulting set size. -/
def addSocket (reg : Registry) (u h : String) : Registry × Nat :=
  let s := setAdd ((regGet reg u).getD []) h
  (regSet reg u s, s.length)

/-- socketHandler.js removeSocket: no entry gives 0; otherwise drop the
handle, delete the entry when the set became empty, and return the size. -/
def removeSocket (reg : Registry) (u h : String) : Registry × Nat :=
  match regGet reg u with
  | none => (reg, 0)
  | some s =>
    let s2 := s.filter (fun x => x ≠ h)
    if s2.length = 0 then (regDel reg u, 0) else (regSet reg u s2, s2.length)

/-- socketHandler.js runCleanup (the stale-connection reaper), restricted to
its registry effect: per user keep only the handles the liveness oracle
reports alive, deleting users whose alive set is empty.  The returned list
is `disconnectedUsers` (those users are marked offline in the external User
store, best-effort). -/
def runCleanup (alive : String → Bool) (reg : Registry) :
    Registry × List String :=
  (reg.filterMap (fun p =>
      let a := p.2.filter alive
      if a.isEmpty then none else some (p.1, a)),
   (reg.filter (fun p => (p.2.filter alive).isEmpty)).map (·.1))

/-- Registry operations of the socket lifecycle: connection registration,
disconnect unregistration, and a reaper sweep. -/
inductive RegOp
  | register (u h : String)
  | unregister (u h : String)
  | sweep (alive : String → Bool)

/-- One registry operation applied to the registry state. -/
def applyOp (reg : Registry) : RegOp → Registry
  | .register u h => (addSocket reg u h).1
  | .unregister u h => (removeSocket reg u h).1
  | .sweep alive => (runCleanup alive reg).1

/-- A sequence of registry operations from the empty startup registry. -/
def applyOps (ops : List RegOp) : Registry :=
  ops.foldl applyOp []

/-- The handle set snapshot for a user (empty when unregistered). -/
def handlesFor (reg : Registry) (u : String) : List String :=
  (regGet reg u).getD []

/-- The user_status_change broadcast payload. -/
inductive PresenceEvent
  | statusChange (userId : String) (isOnline : Bool)
  deriving Repr, DecidableEq

/-- The connection handler's registry effect and presence broadcasts:
`wasOnline = onlineUsers.has(u)` before addSocket, and the online broadcast
fires only when the user was not yet present. -/
def connectionEvents (reg : Registry) (u h : String) :
    Registry × List PresenceEvent :=
  let wasOnline := (regGet reg u).isSome
  ((addSocket reg u h).1,
   if wasOnline then [] else [.statusChange u true])

/-- The disconnect handler's registry effect and presence broadcasts: the
offline broadcast fires exactly when removeSocket reports 0 remaining
handles. -/
def disconnectEvents (reg : Registry) (u h : String) :
    Registry × List PresenceEvent :=
  let r := removeSocket reg u h
  (r.1, if r.2 = 0 then [.statusChange u false] else [])

/-- The reaper sweep's registry effect and presence broadcasts: runCleanup
updates the external User store for removed users but emits no socket
broadcast at all. -/
def sweepEvents (alive : String → Bool) (reg : Registry) :
    Registry × List PresenceEvent :=
  ((runCleanup alive reg).1, [])

/-- The message_notification payload: conversation id, sender and a 100-char
content preview (`trimmed.substring(0, 100)`). -/
structure NotifyPayload where
  conversationId : Nat
  senderId : String
  preview : String
  deriving Repr, DecidableEq

/-- JS `trimmed.substring(0, 100)`. -/
def previewOf (s : String) : String :=
  String.mk (s.toList.take 100)

/-- One socket delivery of the send fan-out: either the full new_message
event to a room member, or the lighter message_notification to one of the
receiver's sockets. -/
inductive Delivery
  | fullMessage (handle : String) (msgId : Nat)
  | lightNotify (handle : String) (payload : NotifyPayload)
  deriving Repr, DecidableEq

/-- The send_message fan-out (socketHandler.js after persistence):
`io.to(conversationId)` emits the full message to every socket in the
conversation room, then every socket of `onlineUsers.get(receiverId)` gets
message_notification — with no subscription check. -/
def fanOut (room : List String) (reg : Registry) (receiverId : String)
    (cid : Nat) (senderId : String) (trimmed : String) (mid : Nat) :
    List Delivery :=
  (room.map (fun h => Delivery.fullMessage h mid)) ++
  (match regGet reg receiverId with
   | none => []
   | some socks =>
     socks.map (fun h => Delivery.lightNotify h ⟨cid, senderId, previewOf trimmed⟩))

/-- Check 1 of the spec's validation order: content is a string whose
trimmed form is non-empty and within the configured maximum. -/
def failsContentCheck (content : Option String) : Bool :=
  match content with
  | none => true
  | some c =>
    decide (jsTrim c = "") || decide (MAX_MESSAGE_LENGTH < (jsTrim c).length)

/-- Check 2: the sender's account snapshot exists, is not suspended, is not
inactive. -/
def failsSenderCheck (db : ChatDb) (userId : String) : Bool :=
  match db.users userId with
  | none => true
  | some s => s.isSuspended || s.isActive == some false

/-- Check 3: the sender holds the messaging entitlement. -/
def failsEntitlementCheck (db : ChatDb) (now : Nat) (userId : String) : Bool :=
  !hasPremiumAccess now (db.users userId)

/-- Check 4: the receiver's account snapshot exists and is not suspended or
inactive. -/
def failsReceiverCheck (db : ChatDb) (rid : String) : Bool :=
  match db.users rid with
  | none => true
  | some r => r.isSuspended || r.isActive == some false

/-- Check 5: the conversation exists and is not blocked. -/
def failsConversationCheck (db : ChatDb) (cid : Nat) : Bool :=
  match db.convs.find? (fun c => c.id == cid) with
  | none => true
  | some c => c.isBlocked

/-- Check 6: sender and receiver are both participants of the conversation. -/
def failsMembershipCheck (db : ChatDb) (cid : Nat) (userId rid : String) : Bool :=
  match db.convs.find? (fun c => c.id == cid) with
  | none => true
  | some c => !(c.participants.contains userId) || !(c.participants.contains rid)

/-- The spec's numbered validation checks (1-6); indices outside the list
never fail. -/
def failsCheck (db : ChatDb) (now : Nat) (userId : String) (cid : Nat)
    (rid : String) (content : Option String) (i : Nat) : Bool :=
  if i = 1 then failsContentCheck content
  else if i = 2 then failsSenderCheck db userId
  else if i = 3 then failsEntitlementCheck db now userId
  else if i = 4 then failsReceiverCheck db rid
  else if i = 5 then failsConversationCheck db cid
  else if i = 6 then failsMembershipCheck db cid userId rid
  else false

/-- The index of the first failing check in the spec's order, none when all
six pass. -/
def firstFailing (db : ChatDb) (now : Nat) (userId : String) (cid : Nat)
    (rid : String) (content : Option String) : Option Nat :=
  if failsCheck db now userId cid rid content 1 then some 1
  else if failsCheck db now userId cid rid content 2 then some 2
  else if failsCheck db now userId cid rid content 3 then some 3
  else if failsCheck db now userId cid rid content 4 then some 4
  else if failsCheck db now userId cid rid content 5 then some 5
  else if failsCheck db now userId cid rid content 6 then some 6
  else none

/-- The check each reported reason belongs to (0 for the id-format guards
that precede the spec's list).  This map is a function, so reasons of
different checks are distinct. -/
def checkOf : SendErr → Nat
  | .invalidConversationId => 0
  | .invalidReceiverId => 0
  | .contentNotString => 1
  | .emptyMessage => 1
  | .messageTooLong => 1
  | .senderNotFound => 2
  | .senderSuspended => 2
  | .senderInactive => 2
  | .premiumRequired => 3
  | .receiverNotFound => 4
  | .receiverUnavailable => 4
  | .conversationNotFound => 5
  | .conversationBlocked => 5
  | .notAuthorized => 6

theorem leafSome {res : Except SendErr ValidSend} {ff : Option Nat}
    {fc : Nat → Bool} (e : SendErr) (hff : ff = some (checkOf e))
    (hres : res = .error e) (hfk : fc (checkOf e) = true)
    (hlt : ∀ j, 0 < j → j < checkOf e → fc j = false) :
    (∀ i, ff = some i → ∃ x, res = .error x ∧ checkOf x = i)
    ∧ (ff = none → ∃ v, res = .ok v)
    ∧ (∀ i, ff = some i → fc i = true ∧ ∀ j, 0 < j → j < i → fc j = false) := by
  subst hff hres
  refine ⟨?_, ?_, ?_⟩
  · intro i hi
    simp only [Option.some.injEq] at hi
    subst hi
    exact ⟨e, rfl, rfl⟩
  · intro h0
    simp at h0
  · intro i hi
    simp only [Option.some.injEq] at hi
    subst hi
    exact ⟨hfk, hlt⟩

theorem leafNone {res : Except SendErr ValidSend} {ff : Option Nat}
    {fc : Nat → Bool} (hff : ff = none) (v : ValidSend) (hres : res = .ok v) :
    (∀ i, ff = some i → ∃ x, res = .error x ∧ checkOf x = i)
    ∧ (ff = none → ∃ w, res = .ok w)
    ∧ (∀ i, ff = some i → fc i = true ∧ ∀ j, 0 < j → j < i → fc j = false) := by
  subst hff hres
  exact ⟨fun i hi => by simp at hi, fun _ => ⟨v, rfl⟩, fun i hi => by simp at hi⟩

theorem sendOutcome_firstFailure (db : ChatDb) (now : Nat) (userId : String)
    (cid : Nat) (rid : String) (content : Option String)
    (mtype : Option String) :
    (∀ i, firstFailing db now userId cid rid content = some i →
        ∃ e, sendOutcome db now userId cid rid content mtype = .error e ∧
          checkOf e = i)
    ∧ (firstFailing db now userId cid rid content = none →
        ∃ v, sendOutcome db now userId cid rid content mtype = .ok v)
    ∧ (∀ i, firstFailing db now userId cid rid content = some i →
        failsCheck db now userId cid rid content i = true ∧
        ∀ j, 0 < j → j < i → failsCheck db now userId cid rid content j = false) := by
  cases hcont : content with
  | none =>
    refine leafSome .contentNotString ?_ ?_ ?_ ?_
    · simp [firstFailing, failsCheck, failsContentCheck, checkOf]
    · simp [sendOutcome]
    · simp [checkOf, failsCheck, failsContentCheck]
    · intro j hj0 hj1
      have hjk : j < 1 := hj1
      exact absurd hj0 (by omega)
  | some c =>
    by_cases h1 : jsTrim c = ""
    · refine leafSome .emptyMessage ?_ ?_ ?_ ?_
      · simp [firstFailing, failsCheck, failsContentCheck, checkOf, h1]
      · simp [sendOutcome, h1]
      · simp [checkOf, failsCheck, failsContentCheck, h1]
      · intro j hj0 hj1
        have hjk : j < 1 := hj1
        exact absurd hj0 (by omega)
    · by_cases h2 : MAX_MESSAGE_LENGTH < (jsTrim c).length
      · refine leafSome .messageTooLong ?_ ?_ ?_ ?_
        · simp [firstFailing, failsCheck, failsContentCheck, checkOf, h1, h2]
        · simp [sendOutcome, h1, h2]
        · simp [checkOf, failsCheck, failsContentCheck, h1, h2]
        · intro j hj0 hj1
          have hjk : j < 1 := hj1
          exact absurd hj0 (by omega)
      · have hc1 : failsCheck db now userId cid rid (some c) 1 = false := by
          simp [failsCheck, failsContentCheck, h1, h2]
        cases hs : db.users userId with
        | none =>
          refine leafSome .senderNotFound ?_ ?_ ?_ ?_
          · simp [firstFailing, failsCheck, failsContentCheck, failsSenderCheck,
              checkOf, h1, h2, hs]
          · simp [sendOutcome, h1, h2, hs]
          · simp [checkOf, failsCheck, failsSenderCheck, hs]
          · intro j hj0 hj1
            have hjk : j < 2 := hj1
            have hj : j = 1 := by omega
            subst hj; exact hc1
        | some s =>
          cases hsusp : s.isSuspended with
          | true =>
            refine leafSome .senderSuspended ?_ ?_ ?_ ?_
            · simp [firstFailing, failsCheck, failsContentCheck, failsSenderCheck,
                checkOf, h1, h2, hs, hsusp]
            · simp [sendOutcome, h1, h2, hs, hsusp]
            · simp [checkOf, failsCheck, failsSenderCheck, hs, hsusp]
            · intro j hj0 hj1
              have hjk : j < 2 := hj1
              have hj : j = 1 := by omega
              subst hj; exact hc1
          | false =>
            cases hact : s.isActive == some false with
            | true =>
              refine leafSome .senderInactive ?_ ?_ ?_ ?_
              · simp [firstFailing, failsCheck, failsContentCheck,
                  failsSenderCheck, checkOf, h1, h2, hs, hsusp, hact]
              · simp [sendOutcome, h1, h2, hs, hsusp, hact]
              · simp [checkOf, failsCheck, failsSenderCheck, hs, hsusp, hact]
              · intro j hj0 hj1
                have hjk : j < 2 := hj1
                have hj : j = 1 := by omega
                subst hj; exact hc1
            | false =>
              have hc2 : failsCheck db now userId cid rid (some c) 2 = false := by
                simp [failsCheck, failsSenderCheck, hs, hsusp, hact]
              cases hp : hasPremiumAccess now (some s) with
              | false =>
                refine leafSome .premiumRequired ?_ ?_ ?_ ?_
                · simp [firstFailing, failsCheck, failsContentCheck,
                    failsSenderCheck, failsEntitlementCheck, checkOf, h1, h2, hs,
                    hsusp, hact, hp]
                · simp [sendOutcome, h1, h2, hs, hsusp, hact, hp]
                · simp [checkOf, failsCheck, failsEntitlementCheck, hs, hp]
                · intro j hj0 hj1
                  have hjk : j < 3 := hj1
                  interval_cases j
                  · exact hc1
                  · exact hc2
              | true =>
                have hc3 : failsCheck db now userId cid rid (some c) 3 = false := by
                  simp [failsCheck, failsEntitlementCheck, hs, hp]
                cases hr : db.users rid with
                | none =>
                  refine leafSome .receiverNotFound ?_ ?_ ?_ ?_
                  · simp [firstFailing, failsCheck, failsContentCheck,
                      failsSenderCheck, failsEntitlementCheck, failsReceiverCheck,
                      checkOf, h1, h2, hs, hsusp, hact, hp, hr]
                  · simp [sendOutcome, h1, h2, hs, hsusp, hact, hp, hr]
                  · simp [checkOf, failsCheck, failsReceiverCheck, hr]
                  · intro j hj0 hj1
                    have hjk : j < 4 := hj1
                    interval_cases j
                    · exact hc1
                    · exact hc2
                    · exact hc3
                | some r =>
                  cases hru : r.isSuspended || r.isActive == some false with
                  | true =>
                    refine leafSome .receiverUnavailable ?_ ?_ ?_ ?_
                    · simp [firstFailing, failsCheck, failsContentCheck,
                        failsSenderCheck, failsEntitlementCheck,
                        failsReceiverCheck, checkOf, h1, h2, hs, hsusp, hact, hp,
                        hr, hru]
                    · simp [sendOutcome, h1, h2, hs, hsusp, hact, hp, hr, hru]
                    · simp [checkOf, failsCheck, failsReceiverCheck, hr, hru]
                    · intro j hj0 hj1
                      have hjk : j < 4 := hj1
                      interval_cases j
                      · exact hc1
                      · exact hc2
                      · exact hc3
                  | false =>
                    have hc4 : failsCheck db now userId cid rid (some c) 4 = false := by
                      simp [failsCheck, failsReceiverCheck, hr, hru]
                    cases hcv : db.convs.find? (fun cv => cv.id == cid) with
                    | none =>
                      refine leafSome .conversationNotFound ?_ ?_ ?_ ?_
                      · simp [firstFailing, failsCheck, failsContentCheck,
                          failsSenderCheck, failsEntitlementCheck,
                          failsReceiverCheck, failsConversationCheck, checkOf,
                          h1, h2, hs, hsusp, hact, hp, hr, hru, hcv]
                      · simp [sendOutcome, h1, h2, hs, hsusp, hact, hp, hr, hru,
                          hcv]
                      · simp [checkOf, failsCheck, failsConversationCheck, hcv]
                      · intro j hj0 hj1
                        have hjk : j < 5 := hj1
                        interval_cases j
                        · exact hc1
                        · exact hc2
                        · exact hc3
                        · exact hc4
                    | some conv =>
                      cases hb : conv.isBlocked with
                      | true =>
                        refine leafSome .conversationBlocked ?_ ?_ ?_ ?_
                        · simp [firstFailing, failsCheck, failsContentCheck,
                            failsSenderCheck, failsEntitlementCheck,
                            failsReceiverCheck, failsConversationCheck, checkOf,
                            h1, h2, hs, hsusp, hact, hp, hr, hru, hcv, hb]
                        · simp [sendOutcome, h1, h2, hs, hsusp, hact, hp, hr,
                            hru, hcv, hb]
                        · simp [checkOf, failsCheck, failsConversationCheck, hcv,
                            hb]
                        · intro j hj0 hj1
                          have hjk : j < 5 := hj1
                          interval_cases j
                          · exact hc1
                          · exact hc2
                          · exact hc3
                          · exact hc4
                      | false =>
                        have hc5 : failsCheck db now userId cid rid (some c) 5 = false := by
                          simp [failsCheck, failsConversationCheck, hcv, hb]
                        by_cases hmem : userId ∈ conv.participants ∧
                            rid ∈ conv.participants
                        · refine leafNone ?_ ⟨cid, rid, jsTrim c, mtype.getD "text"⟩ ?_
                          · simp [firstFailing, failsCheck, failsContentCheck,
                              failsSenderCheck, failsEntitlementCheck,
                              failsReceiverCheck, failsConversationCheck,
                              failsMembershipCheck, h1, h2, hs, hsusp, hact, hp,
                              hr, hru, hcv, hb, hmem.1, hmem.2]
                          · simp [sendOutcome, h1, h2, hs, hsusp, hact, hp, hr,
                              hru, hcv, hb, hmem.1, hmem.2]
                        · refine leafSome .notAuthorized ?_ ?_ ?_ ?_
                          · simp only [firstFailing, checkOf, hc1, hc2, hc3,
                              hc4, hc5, Bool.false_eq_true, if_false]
                            have hm6 : failsCheck db now userId cid rid (some c) 6 = true := by
                              simp [failsCheck, failsMembershipCheck, hcv]
                              tauto
                            simp [hm6]
                          · simp [sendOutcome, h1, h2, hs, hsusp, hact, hp, hr,
                              hru, hcv, hb]
                            tauto
                          · simp [checkOf, failsCheck, failsMembershipCheck, hcv]
                            tauto
                          · intro j hj0 hj1
                            have hjk : j < 6 := hj1
                            interval_cases j
                            · exact hc1
                            · exact hc2
                            · exact hc3
                            · exact hc4
                            · exact hc5

theorem getUnread_incUnread_self (m : List (String × Nat)) (u : String) :
    getUnreadForUser (incUnread m u) u = getUnreadForUser m u + 1 := by
  induction m with
  | nil => simp [incUnread, getUnreadForUser]
  | cons p rest ih =>
    by_cases hp : p.1 = u
    · simp [incUnread, getUnreadForUser, List.find?, hp]
    · simp only [incUnread, if_neg hp]
      simp only [getUnreadForUser, List.find?] at ih ⊢
      have hb : (p.1 == u) = false := by simp [hp]
      rw [hb]
      simpa using ih

theorem getUnread_incUnread_other (m : List (String × Nat)) (u v : String)
    (h : v ≠ u) :
    getUnreadForUser (incUnread m u) v = getUnreadForUser m v := by
  induction m with
  | nil =>
    have hb : (u == v) = false := by simpa using Ne.symm h
    simp [incUnread, getUnreadForUser, List.find?, hb]
  | cons p rest ih =>
    by_cases hp : p.1 = u
    · subst hp
      have hb : (p.1 == v) = false := by simpa using Ne.symm h
      simp [incUnread, getUnreadForUser, List.find?, hb]
    · simp only [incUnread, if_neg hp]
      simp only [getUnreadForUser, List.find?] at ih ⊢
      cases hbv : p.1 == v
      · simpa using ih
      · simp

theorem getUnread_setUnread_self (m : List (String × Nat)) (u : String)
    (n : Nat) : getUnreadForUser (setUnread m u n) u = n := by
  induction m with
  | nil => simp [setUnread, getUnreadForUser, List.find?]
  | cons p rest ih =>
    by_cases hp : p.1 = u
    · simp [setUnread, getUnreadForUser, List.find?, hp]
    · simp only [setUnread, if_neg hp]
      simp only [getUnreadForUser, List.find?] at ih ⊢
      have hb : (p.1 == u) = false := by simp [hp]
      rw [hb]
      simpa using ih

theorem getUnread_setUnread_other (m : List (String × Nat)) (u v : String)
    (n : Nat) (h : v ≠ u) :
    getUnreadForUser (setUnread m u n) v = getUnreadForUser m v := by
  induction m with
  | nil =>
    have hb : (u == v) = false := by simpa using Ne.symm h
    simp [setUnread, getUnreadForUser, List.find?, hb]
  | cons p rest ih =>
    by_cases hp : p.1 = u
    · subst hp
      have hb : (p.1 == v) = false := by simpa using Ne.symm h
      simp [setUnread, getUnreadForUser, List.find?, hb]
    · simp only [setUnread, if_neg hp]
      simp only [getUnreadForUser, List.find?] at ih ⊢
      cases hbv : p.1 == v
      · simpa using ih
      · simp

theorem setUnread_setUnread (m : List (String × Nat)) (u : String) (n : Nat) :
    setUnread (setUnread m u n) u n = setUnread m u n := by
  induction m with
  | nil => simp [setUnread]
  | cons p rest ih =>
    by_cases hp : p.1 = u
    · simp [setUnread, hp]
    · simp [setUnread, if_neg hp, ih]

theorem setUnread_of_find?_zero (m : List (String × Nat)) (u : String)
    (q : String × Nat) (hq : m.find? (fun p => p.1 == u) = some q)
    (h0 : q.2 = 0) : setUnread m u 0 = m := by
  induction m with
  | nil => simp [List.find?] at hq
  | cons p rest ih =>
    obtain ⟨a, b⟩ := p
    by_cases hp : a = u
    · have hb : (a == u) = true := by simp [hp]
      simp only [List.find?, hb] at hq
      rw [Option.some_inj] at hq
      subst hq
      simp at h0
      subst h0
      simp [setUnread, hp]
    · have hb : (a == u) = false := by simp [hp]
      simp only [List.find?, hb] at hq
      simp [setUnread, hp, ih hq]

theorem find?_map_pred {α : Type} (f : α → α) (p : α → Bool) (l : List α)
    (h : ∀ x, p (f x) = p x) :
    (l.map f).find? p = (l.find? p).map f := by
  induction l with
  | nil => rfl
  | cons a t ih =>
    simp only [List.map_cons, List.find?]
    rw [h a]
    cases hp : p a
    · simpa using ih
    · simp

/-- C1: for every send command carrying both ids (the id-format guards
precede the spec's numbered list), the socket send validation reports the
reason of the first failing check in the spec's order — (1) content string /
trimmed non-empty / within maximum, (2) sender exists / not suspended / not
inactive, (3) sender entitlement, (4) receiver exists and not suspended or
inactive, (5) conversation exists and not blocked, (6) both ids are
participants.  `checkOf` maps each reported reason to its unique check, so
reasons of different checks are distinct; the last conjunct states that the
reported index is a failing check and every earlier check passes, i.e. the
first failure wins.  When every check passes, validation succeeds. -/
theorem send_validation_order (db : ChatDb) (now : Nat) (userId : String)
    (inp : SendInput) (cid : Nat) (rid : String)
    (hc : inp.conversationId = some cid) (hr : inp.receiverId = some rid) :
    (∀ i, firstFailing db now userId cid rid inp.content = some i →
        ∃ e, socketSendCheck db now userId inp = .error e ∧ checkOf e = i)
    ∧ (firstFailing db now userId cid rid inp.content = none →
        ∃ v, socketSendCheck db now userId inp = .ok v)
    ∧ (∀ i, firstFailing db now userId cid rid inp.content = some i →
        failsCheck db now userId cid rid inp.content i = true ∧
        ∀ j, 0 < j → j < i →
          failsCheck db now userId cid rid inp.content j = false) := by
  have hck : socketSendCheck db now userId inp
      = sendOutcome db now userId cid rid inp.content inp.messageType := by
    simp [socketSendCheck, hc, hr]
  rw [hck]
  exact sendOutcome_firstFailure db now userId cid rid inp.content inp.messageType

/-- A store with no user records and no conversations: the sender lookup
(check 2) and the conversation lookup (check 5) both fail. -/
def dbW : ChatDb :=
  { users := fun _ => none, convs := [], msgs := [], nextMsgId := 0,
    nextConvId := 0 }

/-- Witness for C1: with the sender record missing and the conversation also
missing (checks 2 and 5 both failing), the reported reason belongs to check
2, the earlier of the two. -/
theorem send_validation_order_witness :
    ∃ e, socketSendCheck dbW 0 "s" ⟨some 1, some "r", some "x", none⟩ =
      .error e ∧ checkOf e = 2 :=
  (send_validation_order dbW 0 "s" ⟨some 1, some "r", some "x", none⟩ 1 "r"
    rfl rfl).1 2 (by decide)

/-- The unread counter of user `u` on conversation `cid` as a reader of the
store sees it (0 when the conversation or the key is absent). -/
def unreadOf (db : ChatDb) (cid : Nat) (u : String) : Nat :=
  match db.convs.find? (fun c => c.id == cid) with
  | some c => getUnreadForUser c.unreadCount u
  | none => 0

theorem updateConv_pred (v : ValidSend) (senderId : String) (now : Nat)
    (cid : Nat) (c : Conv) :
    ((if c.id == v.cid then
        { c with
          lastMessage := some ⟨v.trimmed, senderId, now, "text"⟩
          updatedAt := now
          unreadCount := incUnread c.unreadCount v.rid }
      else c).id == cid) = (c.id == cid) := by
  by_cases h : (c.id == v.cid) = true <;> simp [h]

theorem markReadConv_pred (cid2 : Nat) (u : String) (p : Conv → Bool)
    (hp : ∀ c hs, p { c with unreadCount := hs } = p c) (c : Conv) :
    p (if c.id == cid2 then { c with unreadCount := setUnread c.unreadCount u 0 }
       else c) = p c := by
  by_cases h : (c.id == cid2) = true <;> simp [h, hp]

/-- C2: a validated send into an existing conversation bumps the receiver's
unread counter by exactly 1 and leaves the sender's counter unchanged; a
markRead by a participant zeroes exactly that participant's counter, leaves
every other user's counter on the conversation untouched, and flags every
previously-unread message of the conversation addressed to the caller as
read with the read timestamp. -/
theorem unread_counters_send_markRead
    (db : ChatDb) (v : ValidSend) (senderId : String) (now : Nat)
    (conv : Conv) (hc : db.convs.find? (fun c => c.id == v.cid) = some conv)
    (hne : senderId ≠ v.rid)
    (db2 : ChatDb) (u : String) (cid2 now2 : Nat) (conv2 : Conv)
    (hf2 : db2.convs.find?
      (fun c => c.id == cid2 && c.participants.contains u) = some conv2) :
    unreadOf (sendPersist db v senderId now true) v.cid v.rid
        = unreadOf db v.cid v.rid + 1
    ∧ unreadOf (sendPersist db v senderId now true) v.cid senderId
        = unreadOf db v.cid senderId
    ∧ unreadOf (markRead db2 u cid2 now2).1 cid2 u = 0
    ∧ (∀ w, w ≠ u →
        unreadOf (markRead db2 u cid2 now2).1 cid2 w = unreadOf db2 cid2 w)
    ∧ (markRead db2 u cid2 now2).1.msgs.length = db2.msgs.length
    ∧ ∀ (i : Nat) (m : Msg), db2.msgs[i]? = some m →
        m.conversationId = cid2 → m.receiverId = u → m.isRead = false →
        (markRead db2 u cid2 now2).1.msgs[i]? =
          some { m with isRead := true, readAt := some now2 } := by
  have hcid : (conv.id == v.cid) = true := by
    have h2 := List.find?_some hc
    simpa using h2
  have hsend : (sendPersist db v senderId now true).convs.find?
      (fun c => c.id == v.cid) = some
      { conv with
        lastMessage := some ⟨v.trimmed, senderId, now, "text"⟩
        updatedAt := now
        unreadCount := incUnread conv.unreadCount v.rid } := by
    show ((db.convs.map _).find? _) = _
    rw [find?_map_pred _ _ _ (updateConv_pred v senderId now v.cid), hc]
    have hcp : conv.id = v.cid := by simpa using hcid
    simp [hcp]
  have hmr : markRead db2 u cid2 now2 =
      ({ db2 with
         msgs := markReadMsgs db2.msgs cid2 u now2
         convs := markReadConvs db2.convs cid2 u }, true) := by
    rw [markRead, hf2]
  have hex : ∃ c0, db2.convs.find? (fun c => c.id == cid2) = some c0 := by
    have hmem := List.mem_of_find?_eq_some hf2
    have hpred := List.find?_some hf2
    simp only [Bool.and_eq_true] at hpred
    have : (db2.convs.find? (fun c => c.id == cid2)).isSome := by
      rw [List.find?_isSome]
      exact ⟨conv2, hmem, hpred.1⟩
    exact Option.isSome_iff_exists.mp this
  obtain ⟨c0, hc0⟩ := hex
  have hc0id : (c0.id == cid2) = true := by
    have h2 := List.find?_some hc0
    simpa using h2
  have hmrc : (markReadConvs db2.convs cid2 u).find? (fun c => c.id == cid2)
      = some { c0 with unreadCount := setUnread c0.unreadCount u 0 } := by
    rw [markReadConvs]
    rw [find?_map_pred _ _ _
      (markReadConv_pred cid2 u (fun c => c.id == cid2) (fun c hs => rfl))]
    rw [hc0]
    have hc0p : c0.id = cid2 := by simpa using hc0id
    simp [hc0p]
  refine ⟨?_, ?_, ?_, ?_, ?_, ?_⟩
  · rw [unreadOf, hsend, unreadOf, hc]
    simp [getUnread_incUnread_self]
  · rw [unreadOf, hsend, unreadOf, hc]
    simp [getUnread_incUnread_other _ _ _ hne]
  · rw [hmr]
    simp only [unreadOf, hmrc]
    simp [getUnread_setUnread_self]
  · intro w hw
    rw [hmr]
    simp only [unreadOf, hmrc, hc0]
    simp [getUnread_setUnread_other _ _ _ _ hw]
  · rw [hmr]
    simp [markReadMsgs]
  · intro i m hm hcid2 hrid hunread
    rw [hmr]
    show (markReadMsgs db2.msgs cid2 u now2)[i]? = _
    rw [markReadMsgs, List.getElem?_map, hm]
    simp [hcid2, hrid, hunread]

theorem markReadMsgs_idem (msgs : List Msg) (cid : Nat) (u : String)
    (n1 n2 : Nat) :
    markReadMsgs (markReadMsgs msgs cid u n1) cid u n2
      = markReadMsgs msgs cid u n1 := by
  simp only [markReadMsgs]
  rw [List.map_map]
  apply List.map_congr_left
  intro m _
  by_cases h : (m.conversationId == cid && m.receiverId == u && !m.isRead) = true
  · simp [Function.comp, h]
  · simp only [Bool.not_eq_true] at h
    simp [Function.comp, h]

theorem markReadConvs_idem (convs : List Conv) (cid : Nat) (u : String) :
    markReadConvs (markReadConvs convs cid u) cid u
      = markReadConvs convs cid u := by
  simp only [markReadConvs]
  rw [List.map_map]
  apply List.map_congr_left
  intro c _
  by_cases h : (c.id == cid) = true
  · simp [Function.comp, h, setUnread_setUnread]
  · simp only [Bool.not_eq_true] at h
    simp [Function.comp, h]

/-- C9: markRead is idempotent — a second markRead right after a first one
leaves the whole store (conversations, unread counters, message read flags)
exactly as after the first, for any pair of timestamps; and when every
message of the conversation addressed to the caller is already read and the
caller's counter entry already holds 0, a markRead changes nothing at all. -/
theorem markRead_idempotent (db : ChatDb) (u : String) (cid : Nat)
    (n1 n2 : Nat) :
    (markRead (markRead db u cid n1).1 u cid n2).1 = (markRead db u cid n1).1
    ∧ ((∀ m ∈ db.msgs, m.conversationId = cid → m.receiverId = u →
          m.isRead = true) →
       (∀ c ∈ db.convs, c.id = cid →
          c.unreadCount.find? (fun p => p.1 == u) = some (u, 0)) →
       (markRead db u cid n1).1 = db) := by
  constructor
  · cases hf : db.convs.find?
        (fun c => c.id == cid && c.participants.contains u) with
    | none =>
      have h1 : markRead db u cid n1 = (db, false) := by rw [markRead, hf]
      rw [h1]
      rw [markRead, hf]
    | some c1 =>
      have h1 : markRead db u cid n1 =
          ({ db with
             msgs := markReadMsgs db.msgs cid u n1
             convs := markReadConvs db.convs cid u }, true) := by
        rw [markRead, hf]
      have hf2 : (markReadConvs db.convs cid u).find?
          (fun c => c.id == cid && c.participants.contains u)
          = some { c1 with unreadCount := setUnread c1.unreadCount u 0 } := by
        rw [markReadConvs, find?_map_pred _ _ _
          (markReadConv_pred cid u
            (fun c => c.id == cid && c.participants.contains u)
            (fun c hs => rfl)), hf]
        have hpred := List.find?_some hf
        simp only [Bool.and_eq_true, beq_iff_eq] at hpred
        simp [hpred.1]
      rw [h1]
      simp only [markRead, hf2]
      simp [markReadMsgs_idem, markReadConvs_idem]
  · intro hread hzero
    cases hf : db.convs.find?
        (fun c => c.id == cid && c.participants.contains u) with
    | none => rw [markRead, hf]
    | some c1 =>
      rw [markRead, hf]
      simp only
      have hm : markReadMsgs db.msgs cid u n1 = db.msgs := by
        rw [markReadMsgs]
        have hcongr : ∀ m ∈ db.msgs,
            (if m.conversationId == cid && m.receiverId == u && !m.isRead then
              { m with isRead := true, readAt := some n1 }
            else m) = id m := by
          intro m hm
          by_cases h1 : m.conversationId = cid
          · by_cases h2 : m.receiverId = u
            · simp [h1, h2, hread m hm h1 h2]
            · simp [h2]
          · simp [h1]
        rw [List.map_congr_left hcongr, List.map_id]
      have hcv : markReadConvs db.convs cid u = db.convs := by
        rw [markReadConvs]
        have hcongr : ∀ c ∈ db.convs,
            (if c.id == cid then
              { c with unreadCount := setUnread c.unreadCount u 0 }
            else c) = id c := by
          intro c hcm
          by_cases h1 : c.id = cid
          · have hs0 := setUnread_of_find?_zero c.unreadCount u (u, 0)
              (hzero c hcm h1) rfl
            have hb : (c.id == cid) = true := by simp [h1]
            simp only [hb, if_true, id_eq]
            simp [hs0]
          · simp [h1]
        rw [List.map_congr_left hcongr, List.map_id]
      rw [hm, hcv]

/-- A conversation with one read and one unread message for user b, and the
counter entry of b present at 0 after reading: the idempotence witness
store. -/
def dbC9 : ChatDb :=
  { users := fun _ => none
    convs := [⟨1, ["a", "b"], none, [("a", 0), ("b", 0)], false, none, 0, 0⟩]
    msgs := [⟨0, 1, "a", "b", "hi", "text", true, some 3, false, none, 0⟩]
    nextMsgId := 1, nextConvId := 2 }

/-- Witness for C9 at a concrete store: double markRead equals single, and
markRead on an already-read store is the identity. -/
theorem markRead_idempotent_witness :
    (markRead (markRead dbC9 "b" 1 5).1 "b" 1 6).1 = (markRead dbC9 "b" 1 5).1
    ∧ (markRead dbC9 "b" 1 5).1 = dbC9 :=
  have h := markRead_idempotent dbC9 "b" 1 5 6
  ⟨h.1, h.2 (by decide) (by decide)⟩

/-- C10 (implicit): only the sender can soft-delete a message.  When no
stored message has the given id with the requester as sender, the operation
reports not-found (`none`) and the store is unchanged by construction; when
the requester is the sender, the operation succeeds and the result differs
from the input only in the target message's isDeleted flag and deletedAt
timestamp — all other fields and all other messages are untouched. -/
theorem deleteMessage_sender_only (msgs : List Msg) (requester : String)
    (mid : Nat) (now : Nat) :
    ((¬ ∃ m ∈ msgs, m.id = mid ∧ m.senderId = requester) →
        deleteMessage msgs requester mid now = none)
    ∧ ((∃ m ∈ msgs, m.id = mid ∧ m.senderId = requester) →
        (deleteMessage msgs requester mid now).isSome)
    ∧ ∀ msgs2, deleteMessage msgs requester mid now = some msgs2 →
        msgs2.length = msgs.length ∧
        ∀ (i : Nat) (m : Msg), msgs[i]? = some m →
          (m.id = mid → m.senderId = requester →
            msgs2[i]? = some { m with isDeleted := true, deletedAt := some now })
          ∧ (¬(m.id = mid ∧ m.senderId = requester) → msgs2[i]? = some m) := by
  refine ⟨?_, ?_, ?_⟩
  · intro hno
    have hf : msgs.find? (fun m => m.id == mid && m.senderId == requester)
        = none := by
      rw [List.find?_eq_none]
      intro x hx
      simp only [Bool.and_eq_true, beq_iff_eq, not_and]
      intro h1 h2
      exact hno ⟨x, hx, h1, h2⟩
    rw [deleteMessage, hf]
  · intro hyes
    obtain ⟨m, hm, h1, h2⟩ := hyes
    have hf : (msgs.find?
        (fun m => m.id == mid && m.senderId == requester)).isSome := by
      rw [List.find?_isSome]
      exact ⟨m, hm, by simp [h1, h2]⟩
    obtain ⟨q, hq⟩ := Option.isSome_iff_exists.mp hf
    rw [deleteMessage, hq]
    rfl
  · intro msgs2 hdel
    cases hf : msgs.find? (fun m => m.id == mid && m.senderId == requester) with
    | none =>
      rw [deleteMessage, hf] at hdel
      cases hdel
    | some q =>
      rw [deleteMessage, hf, Option.some_inj] at hdel
      subst hdel
      constructor
      · simp
      · intro i m hm
        constructor
        · intro h1 h2
          rw [List.getElem?_map, hm]
          simp [h1, h2]
        · intro hno
          rw [List.getElem?_map, hm]
          by_cases h1 : m.id = mid
          · have h2 : ¬ m.senderId = requester := fun h2 => hno ⟨h1, h2⟩
            simp [h2]
          · simp [h1]

/-- Witness for C10: requester "x" is not the sender of message 0 (sender is
"a"), so deletion reports not-found; the sender "a" can delete it. -/
theorem deleteMessage_sender_only_witness :
    (deleteMessage dbC9.msgs "x" 0 7 = none)
    ∧ (deleteMessage dbC9.msgs "a" 0 7).isSome :=
  ⟨(deleteMessage_sender_only dbC9.msgs "x" 0 7).1 (by decide),
   (deleteMessage_sender_only dbC9.msgs "a" 0 7).2.1 (by decide)⟩

/-- Registry well-formedness: every entry holds a non-empty handle set, and
keys are unique (a JS Map cannot hold a key twice). -/
def RegWF (reg : Registry) : Prop :=
  (∀ p ∈ reg, p.2 ≠ []) ∧ (reg.map Prod.fst).Nodup

theorem mem_keys_regSet (reg : Registry) (u : String) (hs : List String)
    (k : String) :
    k ∈ (regSet reg u hs).map Prod.fst ↔ k ∈ reg.map Prod.fst ∨ k = u := by
  induction reg with
  | nil => simp [regSet]
  | cons p rest ih =>
    by_cases hp : p.1 = u
    · simp [regSet, hp]
      tauto
    · simp [regSet, hp, ih]
      tauto

theorem nodup_keys_regSet (reg : Registry) (u : String) (hs : List String)
    (h : (reg.map Prod.fst).Nodup) :
    ((regSet reg u hs).map Prod.fst).Nodup := by
  induction reg with
  | nil => simp [regSet]
  | cons p rest ih =>
    simp only [List.map_cons, List.nodup_cons] at h
    by_cases hp : p.1 = u
    · simp only [regSet, if_pos hp, List.map_cons, List.nodup_cons]
      exact ⟨by rw [← hp]; exact h.1, h.2⟩
    · simp only [regSet, if_neg hp, List.map_cons, List.nodup_cons]
      refine ⟨?_, ih h.2⟩
      rw [mem_keys_regSet]
      push_neg
      exact ⟨h.1, hp⟩

theorem entries_regSet (reg : Registry) (u : String) (hs : List String)
    (q : String × List String) (hq : q ∈ regSet reg u hs) :
    q.2 = hs ∨ q ∈ reg := by
  induction reg with
  | nil =>
    simp [regSet] at hq
    simp [hq]
  | cons p rest ih =>
    by_cases hp : p.1 = u
    · simp only [regSet, if_pos hp, List.mem_cons] at hq
      rcases hq with hq | hq
      · left; rw [hq]
      · right; exact List.mem_cons_of_mem _ hq
    · simp only [regSet, if_neg hp, List.mem_cons] at hq
      rcases hq with hq | hq
      · right; rw [hq]; exact List.mem_cons_self _ _
      · rcases ih hq with h | h
        · left; exact h
        · right; exact List.mem_cons_of_mem _ h

theorem regDel_sublist (reg : Registry) (u : String) :
    (regDel reg u).Sublist reg := by
  induction reg with
  | nil => simp [regDel]
  | cons p rest ih =>
    by_cases hp : p.1 = u
    · simp only [regDel, if_pos hp]
      exact List.sublist_cons_of_sublist _ (List.Sublist.refl rest)
    · simp only [regDel, if_neg hp]
      exact List.Sublist.cons₂ _ ih

theorem setAdd_ne_nil (l : List String) (h : String) : setAdd l h ≠ [] := by
  rw [setAdd]
  by_cases hc : l.contains h
  · simp only [if_pos hc]
    intro hnil
    rw [hnil] at hc
    simp at hc
  · simp only [if_neg hc]
    simp

theorem keys_runCleanup_sublist (alive : String → Bool) (reg : Registry) :
    ((runCleanup alive reg).1.map Prod.fst).Sublist (reg.map Prod.fst) := by
  induction reg with
  | nil => simp [runCleanup]
  | cons p rest ih =>
    simp only [runCleanup, List.filterMap_cons] at ih ⊢
    by_cases hemp : (p.2.filter alive).isEmpty
    · simp only [if_pos hemp]
      exact List.sublist_cons_of_sublist _ ih
    · simp only [if_neg hemp, List.map_cons]
      exact List.Sublist.cons₂ _ ih

theorem regWF_addSocket (reg : Registry) (u h : String) (hwf : RegWF reg) :
    RegWF (addSocket reg u h).1 := by
  constructor
  · intro q hq
    rcases entries_regSet _ _ _ _ hq with he | he
    · rw [he]; exact setAdd_ne_nil _ _
    · exact hwf.1 q he
  · exact nodup_keys_regSet _ _ _ hwf.2

theorem regWF_removeSocket (reg : Registry) (u h : String) (hwf : RegWF reg) :
    RegWF (removeSocket reg u h).1 := by
  rw [removeSocket]
  cases hg : regGet reg u with
  | none => exact hwf
  | some s =>
    by_cases hlen : (s.filter (fun x => x ≠ h)).length = 0
    · simp only [if_pos hlen]
      constructor
      · intro q hq
        exact hwf.1 q ((regDel_sublist reg u).mem hq)
      · exact hwf.2.sublist ((regDel_sublist reg u).map Prod.fst)
    · simp only [if_neg hlen]
      constructor
      · intro q hq
        rcases entries_regSet _ _ _ _ hq with he | he
        · rw [he]
          intro hnil
          rw [hnil] at hlen
          simp at hlen
        · exact hwf.1 q he
      · exact nodup_keys_regSet _ _ _ hwf.2

theorem regWF_runCleanup (alive : String → Bool) (reg : Registry)
    (hwf : RegWF reg) : RegWF (runCleanup alive reg).1 := by
  constructor
  · intro q hq
    simp only [runCleanup] at hq
    obtain ⟨p, _, hp2⟩ := List.mem_filterMap.mp hq
    by_cases hemp : (p.2.filter alive).isEmpty
    · simp [hemp] at hp2
    · simp only [if_neg hemp] at hp2
      rw [Option.some_inj] at hp2
      rw [← hp2]
      intro hnil
      rw [List.isEmpty_iff] at hemp
      exact hemp (by simpa using hnil)
  · exact hwf.2.sublist (keys_runCleanup_sublist alive reg)

theorem regWF_applyOp (reg : Registry) (op : RegOp) (hwf : RegWF reg) :
    RegWF (applyOp reg op) := by
  cases op with
  | register u h => exact regWF_addSocket reg u h hwf
  | unregister u h => exact regWF_removeSocket reg u h hwf
  | sweep alive => exact regWF_runCleanup alive reg hwf

theorem regWF_applyOps (ops : List RegOp) : RegWF (applyOps ops) := by
  rw [applyOps]
  have hgen : ∀ reg, RegWF reg → RegWF (ops.foldl applyOp reg) := by
    induction ops with
    | nil => intro reg hwf; exact hwf
    | cons op rest ih =>
      intro reg hwf
      exact ih _ (regWF_applyOp reg op hwf)
  exact hgen [] ⟨by simp, by simp⟩

theorem regGet_eq_none_iff (reg : Registry) (u : String) :
    regGet reg u = none ↔ u ∉ reg.map Prod.fst := by
  rw [regGet, Option.map_eq_none', List.find?_eq_none]
  constructor
  · intro hall hmem
    obtain ⟨p, hp, hp1⟩ := List.mem_map.mp hmem
    have hne : ¬ p.1 = u := by simpa using hall p hp
    exact hne hp1
  · intro hnm p hp
    simp only [beq_iff_eq]
    intro heq
    exact hnm (List.mem_map.mpr ⟨p, hp, heq⟩)

theorem regGet_regDel_self (reg : Registry) (u : String)
    (hnd : (reg.map Prod.fst).Nodup) : regGet (regDel reg u) u = none := by
  induction reg with
  | nil => simp [regDel, regGet]
  | cons p rest ih =>
    simp only [List.map_cons, List.nodup_cons] at hnd
    by_cases hp : p.1 = u
    · simp only [regDel, if_pos hp]
      rw [regGet_eq_none_iff]
      rw [← hp]
      exact hnd.1
    · simp only [regDel, if_neg hp]
      have hb : (p.1 == u) = false := by simp [hp]
      simp only [regGet, List.find?, hb]
      exact ih hnd.2

theorem regGet_some_nonempty (reg : Registry) (u : String)
    (s : List String) (hwf : RegWF reg) (hg : regGet reg u = some s) :
    s ≠ [] := by
  rw [regGet] at hg
  obtain ⟨p, hp, hp2⟩ := Option.map_eq_some'.mp hg
  rw [← hp2]
  exact hwf.1 p (List.mem_of_find?_eq_some hp)

/-- C4: across every sequence of register / unregister / reaper-sweep
operations from startup, a user has a registry entry iff the user's handle
set is non-empty, no entry ever holds an empty handle set, and removing a
user's only handle removes the entry entirely. -/
theorem registry_entry_iff_nonempty (ops : List RegOp) :
    (∀ u, handlesFor (applyOps ops) u = [] ↔ regGet (applyOps ops) u = none)
    ∧ (∀ p ∈ applyOps ops, p.2 ≠ [])
    ∧ (∀ u h2, regGet (applyOps ops) u = some [h2] →
        regGet (removeSocket (applyOps ops) u h2).1 u = none) := by
  have hwf := regWF_applyOps ops
  refine ⟨?_, hwf.1, ?_⟩
  · intro u
    cases hg : regGet (applyOps ops) u with
    | none => simp [handlesFor, hg]
    | some s =>
      have hne := regGet_some_nonempty _ _ _ hwf hg
      simp [handlesFor, hg, hne]
  · intro u h2 hg
    rw [removeSocket, hg]
    have hfilter : ([h2].filter (fun x => x ≠ h2)).length = 0 := by simp
    simp only [hfilter, if_pos rfl]
    exact regGet_regDel_self _ _ hwf.2

/-- Witness for C4 at a concrete operation sequence: after registering two
handles for "u" and unregistering one, "u" is still present iff its handle
set is non-empty, and removing the last handle deletes the entry. -/
theorem registry_entry_iff_nonempty_witness :
    (handlesFor (applyOps [.register "u" "h1", .register "u" "h2",
        .unregister "u" "h1"]) "u" = [] ↔
      regGet (applyOps [.register "u" "h1", .register "u" "h2",
        .unregister "u" "h1"]) "u" = none)
    ∧ regGet (removeSocket (applyOps [.register "u" "h1",
        .register "u" "h2", .unregister "u" "h1"]) "u" "h2").1 "u" = none :=
  have h := registry_entry_iff_nonempty
    [.register "u" "h1", .register "u" "h2", .unregister "u" "h1"]
  ⟨h.1 "u", h.2.2 "u" "h2" (by decide)⟩

theorem regGet_regSet_self (reg : Registry) (u : String) (hs : List String) :
    regGet (regSet reg u hs) u = some hs := by
  induction reg with
  | nil => simp [regSet, regGet, List.find?]
  | cons p rest ih =>
    by_cases hp : p.1 = u
    · simp [regSet, regGet, List.find?, hp]
    · have hb : (p.1 == u) = false := by simp [hp]
      simp only [regSet, if_neg hp, regGet, List.find?, hb]
      exact ih

/-- Counterexample for C5: the reaper sweep removes the last live handle of
"u" — a 1→0 transition — but broadcasts no presence event at all (its event
list is empty, not a single offline broadcast); moreover the disconnect
handler broadcasts offline even for a user with no registry entry (a 0→0
non-transition). -/
theorem reaper_offline_broadcast_cex :
    handlesFor [("u", ["h"])] "u" = ["h"]
    ∧ (sweepEvents (fun _ => false) [("u", ["h"])]).1 = []
    ∧ (sweepEvents (fun _ => false) [("u", ["h"])]).2 = []
    ∧ (disconnectEvents [] "u" "h").2 = [.statusChange "u" false] := by
  refine ⟨by decide, by decide, rfl, rfl⟩

/-- C5 amended: the online broadcast fires exactly on a 0→1 registration
transition (registering a second handle emits nothing); the disconnect
handler broadcasts offline exactly when the user ends with zero handles
after the removal (which covers every 1→0 unregistration, but also fires
when the entry was already gone); and a reaper removal broadcasts no
presence event — it only updates the external account store. -/
theorem presence_broadcast_amended (reg : Registry) (u h : String)
    (alive : String → Bool) (hwf : RegWF reg) :
    ((connectionEvents reg u h).2 =
        if handlesFor reg u = [] then [.statusChange u true] else [])
    ∧ handlesFor (connectionEvents reg u h).1 u ≠ []
    ∧ ((disconnectEvents reg u h).2 =
        if handlesFor (disconnectEvents reg u h).1 u = []
        then [.statusChange u false] else [])
    ∧ (sweepEvents alive reg).2 = [] := by
  refine ⟨?_, ?_, ?_, rfl⟩
  · cases hg : regGet reg u with
    | none => simp [connectionEvents, handlesFor, hg]
    | some s =>
      have hne := regGet_some_nonempty _ _ _ hwf hg
      simp [connectionEvents, handlesFor, hg, hne]
  · simp only [connectionEvents, addSocket, handlesFor, regGet_regSet_self,
      Option.getD_some]
    exact setAdd_ne_nil _ _
  · cases hg : regGet reg u with
    | none =>
      simp [disconnectEvents, removeSocket, handlesFor, hg]
    | some s =>
      simp only [disconnectEvents, removeSocket, hg]
      by_cases hlen : (s.filter (fun x => x ≠ h)).length = 0
      · rw [if_pos hlen]
        dsimp only
        rw [if_pos rfl]
        simp only [handlesFor]
        simp [regGet_regDel_self reg u hwf.2]
      · have hne : s.filter (fun x => x ≠ h) ≠ [] := by
          intro hnil
          rw [hnil] at hlen
          simp at hlen
        rw [if_neg hlen]
        dsimp only
        rw [if_neg hlen]
        simp only [handlesFor, regGet_regSet_self, Option.getD_some]
        rw [if_neg hne]

/-- Witness for C5 amended at a concrete registry: a second handle for an
already-online user keeps the handle set non-empty, and a sweep emits no
presence event. -/
theorem presence_broadcast_amended_witness :
    handlesFor (connectionEvents [("u", ["h1"])] "u" "h2").1 "u" ≠ []
    ∧ (sweepEvents (fun _ => true) [("u", ["h1"])]).2 = [] :=
  have hp := presence_broadcast_amended [("u", ["h1"])] "u" "h2"
    (fun _ => true) ⟨by decide, by decide⟩
  ⟨hp.2.1, hp.2.2.2⟩

theorem sendOutcome_ok_not_blocked (db : ChatDb) (now : Nat) (userId : String)
    (cid : Nat) (rid : String) (content : Option String)
    (mtype : Option String) (v : ValidSend)
    (h : sendOutcome db now userId cid rid content mtype = .ok v) :
    ∃ conv, db.convs.find? (fun c => c.id == cid) = some conv ∧
      conv.isBlocked = false := by
  have hff := (sendOutcome_firstFailure db now userId cid rid content mtype).1
  cases hffv : firstFailing db now userId cid rid content with
  | some i =>
    obtain ⟨e, he, _⟩ := hff i hffv
    rw [h] at he
    simp at he
  | none =>
    simp only [firstFailing] at hffv
    split_ifs at hffv with g1 g2 g3 g4 g5 g6
    have h5f : failsConversationCheck db cid = false := by
      simpa [failsCheck] using g5
    cases hcv : db.convs.find? (fun c => c.id == cid) with
    | none => simp [failsConversationCheck, hcv] at h5f
    | some conv =>
      refine ⟨conv, rfl, ?_⟩
      simpa [failsConversationCheck, hcv] using h5f

/-- C6: a blocked conversation rejects a send from anyone — for any sender
the handler leaves the store unchanged and emits an error, and when the
request is otherwise fully valid (so that the blocked check is the first to
fail) the reported reason is the authorization reason `conversationBlocked`;
and an unblock request by a user other than the recorded blocker leaves the
conversation untouched (so it stays blocked). -/
theorem blocked_conversation_rejects (db : ChatDb) (now : Nat) (cid : Nat)
    (conv : Conv) (hfind : db.convs.find? (fun c => c.id == cid) = some conv)
    (hb : conv.isBlocked = true) :
    (∀ userId inp, inp.conversationId = some cid →
        (socketSend db now userId inp).1 = db ∧
        (socketSend db now userId inp).2.isSome)
    ∧ (∀ userId (inp : SendInput) (c : String) (s r : UserSnap)
        (rid : String),
        inp.conversationId = some cid → inp.receiverId = some rid →
        inp.content = some c → jsTrim c ≠ "" →
        ¬(MAX_MESSAGE_LENGTH < (jsTrim c).length) →
        db.users userId = some s → s.isSuspended = false →
        (s.isActive == some false) = false →
        hasPremiumAccess now (some s) = true →
        db.users rid = some r →
        (r.isSuspended || r.isActive == some false) = false →
        (socketSend db now userId inp).2 = some .conversationBlocked)
    ∧ (∀ (convs : List Conv) (requester target : String) (c2 : Conv),
        (convs.map (fun c => c.id)).Nodup → c2 ∈ convs →
        c2.blockedBy ≠ some requester →
        c2 ∈ unblockUser convs requester target) := by
  refine ⟨?_, ?_, ?_⟩
  · intro userId inp hcid
    cases hck : socketSendCheck db now userId inp with
    | error e => simp [socketSend, hck]
    | ok v =>
      exfalso
      simp only [socketSendCheck, hcid] at hck
      cases hrid : inp.receiverId with
      | none => rw [hrid] at hck; simp at hck
      | some rid =>
        rw [hrid] at hck
        obtain ⟨conv2, hc2, hb2⟩ := sendOutcome_ok_not_blocked db now userId
          cid rid inp.content inp.messageType v hck
        rw [hfind, Option.some_inj] at hc2
        rw [← hc2] at hb2
        rw [hb] at hb2
        cases hb2
  · intro userId inp c s r rid hcid hrid hcont h1 h2 hs hsusp hact hp hr hru
    simp [socketSend, socketSendCheck, hcid, hrid, sendOutcome, hcont, h1, h2,
      hs, hsusp, hact, hp, hr, hru, hfind, hb]
  · intro convs requester target c2 hnd hmem hbb
    rw [unblockUser]
    cases hf : convs.find? (fun c =>
        c.participants.contains requester && c.participants.contains target &&
        c.blockedBy == some requester) with
    | none => exact hmem
    | some c0 =>
      have hpred := List.find?_some hf
      simp only [Bool.and_eq_true, beq_iff_eq] at hpred
      have hc0m := List.mem_of_find?_eq_some hf
      have hne : ¬ (c2.id == c0.id) = true := by
        simp only [beq_iff_eq]
        intro hid
        have : c2 = c0 := by
          have hinj := List.inj_on_of_nodup_map hnd
          exact hinj hmem hc0m hid
        rw [this] at hbb
        exact hbb hpred.2
      rw [List.mem_map]
      refine ⟨c2, hmem, ?_⟩
      simp [hne]

/-- The pair's conversation, blocked by "a". -/
def convBlocked : Conv :=
  ⟨1, ["a", "b"], none, [("a", 0), ("b", 0)], true, some "a", 0, 0⟩

/-- A store with two healthy entitled users "a" and "b" and their blocked
conversation. -/
def dbBlocked : ChatDb :=
  { users := fun uid =>
      if uid = "a" then some ⟨false, some true, false, some 100, none⟩
      else if uid = "b" then some ⟨false, some true, false, some 100, none⟩
      else none
    convs := [convBlocked], msgs := [], nextMsgId := 0, nextConvId := 2 }

/-- Witness for C6: a fully valid send by participant "b" into the blocked
conversation is rejected with the blocked reason, and an unblock attempt by
"b" (not the blocker "a") leaves the blocked conversation in place. -/
theorem blocked_conversation_rejects_witness :
    (socketSend dbBlocked 10 "b" ⟨some 1, some "a", some "hello", none⟩).2
        = some .conversationBlocked
    ∧ convBlocked ∈ unblockUser [convBlocked] "b" "a" :=
  have h := blocked_conversation_rejects dbBlocked 10 1 convBlocked
    (by decide) (by decide)
  ⟨h.2.1 "b" ⟨some 1, some "a", some "hello", none⟩ "hello"
      ⟨false, some true, false, some 100, none⟩
      ⟨false, some true, false, some 100, none⟩ "a"
      rfl rfl rfl (by decide) (by decide) rfl (by decide) (by decide)
      (by decide) rfl (by decide),
   h.2.2 [convBlocked] "b" "a" convBlocked (by decide) (by decide) (by decide)⟩

/-- The pair's open conversation between "s" and "r". -/
def convSR : Conv := ⟨1, ["s", "r"], none, [("s", 0), ("r", 0)], false, none, 0, 0⟩

/-- A store with an entitled active sender "s", a healthy receiver "r", and
their existing conversation. -/
def dbSR : ChatDb :=
  { users := fun uid =>
      if uid = "s" then some ⟨false, some true, false, some 100, none⟩
      else if uid = "r" then some ⟨false, some true, false, none, none⟩
      else none
    convs := [convSR], msgs := [], nextMsgId := 0, nextConvId := 2 }

/-- Counterexample for C7: a valid, entitled sender supplying only a
receiver id (no conversation id) — the pair's conversation even exists — is
rejected by the socket send with the invalid-conversation-id reason instead
of being accepted. -/
theorem socket_send_requires_both_ids_cex :
    hasPremiumAccess 10 (dbSR.users "s") = true
    ∧ dbSR.convs.find? (fun c => c.participants.contains "s" &&
        c.participants.contains "r") = some convSR
    ∧ socketSend dbSR 10 "s" ⟨none, some "r", some "hello", none⟩
        = (dbSR, some .invalidConversationId) :=
  ⟨by decide, by decide, rfl⟩

/-- C7 amended: only the HTTP sendMessage accepts either an existing
conversation id or a bare receiver id (resolving the pair's conversation, or
creating it when absent); the socket send_message requires both ids,
rejecting a request that omits either one before any other validation. -/
theorem send_accepts_either_id_amended :
    (∀ (db : ChatDb) (now : Nat) (userId : String) (cid : Nat) (conv : Conv)
        (c : String) (mt : String) (rcv : Option String),
        jsTrim c ≠ "" → ¬(MAX_MESSAGE_LENGTH < (jsTrim c).length) →
        hasPremiumAccess now (db.users userId) = true →
        db.convs.find? (fun cv => cv.id == cid &&
          cv.participants.contains userId) = some conv →
        conv.isBlocked = false →
        ∀ other, pickOtherUserId conv.participants userId = some other →
        (httpSendMessage db now userId (some cid) rcv (some c) mt).2.isOk
          = true)
    ∧ (∀ (db : ChatDb) (now : Nat) (userId rid : String) (conv : Conv)
        (c : String) (mt : String),
        jsTrim c ≠ "" → ¬(MAX_MESSAGE_LENGTH < (jsTrim c).length) →
        hasPremiumAccess now (db.users userId) = true →
        rid ≠ userId →
        db.convs.find? (fun cv => cv.participants.contains userId &&
          cv.participants.contains rid) = some conv →
        conv.isBlocked = false →
        ∀ other, pickOtherUserId conv.participants userId = some other →
        (httpSendMessage db now userId none (some rid) (some c) mt).2.isOk
          = true)
    ∧ (∀ (db : ChatDb) (now : Nat) (userId rid : String) (c : String)
        (mt : String),
        jsTrim c ≠ "" → ¬(MAX_MESSAGE_LENGTH < (jsTrim c).length) →
        hasPremiumAccess now (db.users userId) = true →
        rid ≠ userId →
        db.convs.find? (fun cv => cv.participants.contains userId &&
          cv.participants.contains rid) = none →
        (httpSendMessage db now userId none (some rid) (some c) mt).2.isOk
          = true
        ∧ (httpSendMessage db now userId none (some rid) (some c)
            mt).1.convs.length = db.convs.length + 1)
    ∧ (∀ (db : ChatDb) (now : Nat) (userId : String) (inp : SendInput),
        inp.conversationId = none →
        socketSend db now userId inp = (db, some .invalidConversationId))
    ∧ (∀ (db : ChatDb) (now : Nat) (userId : String) (inp : SendInput)
        (cid : Nat),
        inp.conversationId = some cid → inp.receiverId = none →
        socketSend db now userId inp = (db, some .invalidReceiverId)) := by
  refine ⟨?_, ?_, ?_, ?_, ?_⟩
  · intro db now userId cid conv c mt rcv h1 h2 hpa hfind hnb other hpick
    have hres : httpResolveConv db now userId (some cid) rcv
        = (db, .ok conv) := by
      simp only [httpResolveConv]
      rw [hfind]
    simp [httpSendMessage, h1, h2, hpa, hres, hnb, hpick, Except.isOk, Except.toBool]
  · intro db now userId rid conv c mt h1 h2 hpa hrne hfind hnb other hpick
    have hres : httpResolveConv db now userId none (some rid)
        = (db, .ok conv) := by
      simp only [httpResolveConv]
      rw [if_neg hrne, hfind]
    simp [httpSendMessage, h1, h2, hpa, hres, hnb, hpick, Except.isOk, Except.toBool]
  · intro db now userId rid c mt h1 h2 hpa hrne hfind
    have hpick : pickOtherUserId [userId, rid] userId = some rid := by
      simp [pickOtherUserId, List.find?, hrne]
    have hres : httpResolveConv db now userId none (some rid)
        = ({ db with
             convs := db.convs ++
               [⟨db.nextConvId, [userId, rid], none, [], false, none, now, now⟩]
             nextConvId := db.nextConvId + 1 },
           .ok ⟨db.nextConvId, [userId, rid], none, [], false, none, now,
             now⟩) := by
      simp only [httpResolveConv]
      rw [if_neg hrne, hfind]
    constructor
    · simp [httpSendMessage, h1, h2, hpa, hres, hpick, Except.isOk, Except.toBool]
    · simp [httpSendMessage, h1, h2, hpa, hres, hpick]
  · intro db now userId inp hcid
    simp [socketSend, socketSendCheck, hcid]
  · intro db now userId inp cid hcid hrid
    simp [socketSend, socketSendCheck, hcid, hrid]

/-- Witness for C7's amended claim: in the concrete store, the HTTP send
succeeds with only the conversation id, succeeds with only the receiver id,
and the socket send rejects a request without a conversation id. -/
theorem send_accepts_either_id_amended_witness :
    (httpSendMessage dbSR 10 "s" (some 1) none (some "hello") "text").2.isOk
      = true
    ∧ (httpSendMessage dbSR 10 "s" none (some "r") (some "hello")
        "text").2.isOk = true
    ∧ socketSend dbSR 10 "s" ⟨none, some "r", some "hello", none⟩
        = (dbSR, some .invalidConversationId) :=
  have h := send_accepts_either_id_amended
  ⟨h.1 dbSR 10 "s" 1 convSR "hello" "text" none (by decide) (by decide)
    (by decide) (by decide) (by decide) "r" (by decide),
   h.2.1 dbSR 10 "s" "r" convSR "hello" "text" (by decide) (by decide)
    (by decide) (by decide) (by decide) (by decide) "r" (by decide),
   h.2.2.2.1 dbSR 10 "s" ⟨none, some "r", some "hello", none⟩ rfl⟩

/-- Counterexample for C8: receiver handle "h" is subscribed to the
conversation room, yet the fan-out delivers the light notification to it as
well — the code loops over all of the receiver's sockets with no
subscription check, so a subscribed receiver handle does get the
notification. -/
theorem notify_subscribed_handle_cex :
    "h" ∈ ["h"]
    ∧ Delivery.lightNotify "h" ⟨1, "s", previewOf "hi"⟩
        ∈ fanOut ["h"] [("r", ["h"])] "r" 1 "s" "hi" 5 := by
  refine ⟨by decide, by decide⟩

/-- C8 amended: the full message event goes to exactly the handles currently
in the conversation room, and the light notification (conversation id,
sender, 100-char preview) goes to exactly every live handle of the
receiver, whether subscribed or not. -/
theorem fanout_characterization (room : List String) (reg : Registry)
    (receiverId : String) (cid : Nat) (senderId : String) (trimmed : String)
    (mid : Nat) :
    (∀ hnd, Delivery.fullMessage hnd mid
        ∈ fanOut room reg receiverId cid senderId trimmed mid ↔ hnd ∈ room)
    ∧ (∀ hnd payload, Delivery.lightNotify hnd payload
        ∈ fanOut room reg receiverId cid senderId trimmed mid ↔
        (hnd ∈ handlesFor reg receiverId ∧
          payload = ⟨cid, senderId, previewOf trimmed⟩)) := by
  constructor
  · intro hnd
    cases hg : regGet reg receiverId with
    | none => simp [fanOut, hg]
    | some socks => simp [fanOut, hg]
  · intro hnd payload
    cases hg : regGet reg receiverId with
    | none => simp [fanOut, handlesFor, hg]
    | some socks =>
      simp only [fanOut, hg, handlesFor, Option.getD_some, List.mem_append,
        List.mem_map]
      constructor
      · intro hmem
        rcases hmem with h | h
        · obtain ⟨a, _, ha⟩ := h
          cases ha
        · obtain ⟨a, hain, ha⟩ := h
          cases ha
          exact ⟨hain, rfl⟩
      · intro ⟨hmem, hpay⟩
        right
        exact ⟨hnd, hmem, by rw [hpay]⟩

/-- A one-conversation store for the atomicity counterexample: conversation
1 between "a" and "b" with zero counters and no last message. -/
def dbAtomic : ChatDb :=
  { users := fun _ => none
    convs := [⟨1, ["a", "b"], none, [("a", 0), ("b", 0)], false, none, 0, 0⟩]
    msgs := [], nextMsgId := 7, nextConvId := 2 }

/-- Counterexample for C3: the two persistence steps are separate awaits
with no transaction.  When the conversation update does not take effect
(step2ok = false — the second await failing or a read landing between the
two), the message is persisted and retrievable while the conversation still
shows no last message and an unread counter of 0: a partial subset of the
three effects remains, contradicting the claimed atomicity. -/
theorem send_atomicity_cex :
    (sendPersist dbAtomic ⟨1, "b", "hello", "text"⟩ "a" 5 false).msgs.length
      = dbAtomic.msgs.length + 1
    ∧ (sendPersist dbAtomic ⟨1, "b", "hello", "text"⟩ "a" 5 false).convs
      = dbAtomic.convs
    ∧ unreadOf (sendPersist dbAtomic ⟨1, "b", "hello", "text"⟩ "a" 5 false)
        1 "b" = 0
    ∧ (sendPersist dbAtomic ⟨1, "b", "hello", "text"⟩ "a" 5 true).msgs.length
      = dbAtomic.msgs.length + 1
    ∧ unreadOf (sendPersist dbAtomic ⟨1, "b", "hello", "text"⟩ "a" 5 true)
        1 "b" = 1 := by
  refine ⟨by decide, by decide, by decide, by decide, by decide⟩

/-- C3 amended: a validated send persists in two sequential steps — the
message insert, then one conversation update carrying both the last-message
summary and the receiver's counter increment.  When both steps run, the
message is appended and the conversation reflects exactly it; if the second
step does not take effect, the inserted message remains visible while the
conversation keeps its old summary and counters, so a partial state is
observable. -/
theorem send_two_step_effects (db : ChatDb) (v : ValidSend)
    (senderId : String) (now : Nat) (conv : Conv)
    (hc : db.convs.find? (fun c => c.id == v.cid) = some conv) :
    ((sendPersist db v senderId now false).msgs
        = db.msgs ++ [mkMessage db.nextMsgId v senderId now]
      ∧ (sendPersist db v senderId now false).convs = db.convs)
    ∧ ((sendPersist db v senderId now true).msgs
        = db.msgs ++ [mkMessage db.nextMsgId v senderId now]
      ∧ (sendPersist db v senderId now true).convs.find?
          (fun c => c.id == v.cid) = some
          { conv with
            lastMessage := some ⟨v.trimmed, senderId, now, "text"⟩
            updatedAt := now
            unreadCount := incUnread conv.unreadCount v.rid }) := by
  refine ⟨⟨rfl, rfl⟩, rfl, ?_⟩
  have hcid : (conv.id == v.cid) = true := by
    have h2 := List.find?_some hc
    simpa using h2
  show ((db.convs.map _).find? _) = _
  rw [find?_map_pred _ _ _ (updateConv_pred v senderId now v.cid), hc]
  have hcp : conv.id = v.cid := by simpa using hcid
  simp [hcp]

/-- Witness for C3's amended claim at the concrete store: step-2 failure
leaves the conversation list untouched while the message is appended. -/
theorem send_two_step_effects_witness :
    (sendPersist dbAtomic ⟨1, "b", "hi", "text"⟩ "a" 5 false).convs
      = dbAtomic.convs
    ∧ (sendPersist dbAtomic ⟨1, "b", "hi", "text"⟩ "a" 5 false).msgs
      = dbAtomic.msgs ++ [mkMessage dbAtomic.nextMsgId
          ⟨1, "b", "hi", "text"⟩ "a" 5] :=
  have h := send_two_step_effects dbAtomic ⟨1, "b", "hi", "text"⟩ "a" 5
    ⟨1, ["a", "b"], none, [("a", 0), ("b", 0)], false, none, 0, 0⟩ (by decide)
  ⟨h.1.2, h.1.1⟩

/-- A store with the pair's conversation and one unread message addressed
to "b": the C2 witness input. -/
def dbC2 : ChatDb :=
  { users := fun _ => none
    convs := [⟨1, ["a", "b"], none, [("a", 0), ("b", 1)], false, none, 0, 0⟩]
    msgs := [⟨0, 1, "a", "b", "hi", "text", false, none, false, none, 0⟩]
    nextMsgId := 1, nextConvId := 2 }

/-- Witness for C2 at the concrete store: a send by "a" bumps "b"'s counter
from 1 to 2 and leaves "a"'s counter alone; a markRead by "b" zeroes "b"'s
counter and leaves "a"'s counter alone. -/
theorem unread_counters_send_markRead_witness :
    unreadOf (sendPersist dbC2 ⟨1, "b", "yo", "text"⟩ "a" 5 true) 1 "b"
      = unreadOf dbC2 1 "b" + 1
    ∧ unreadOf (sendPersist dbC2 ⟨1, "b", "yo", "text"⟩ "a" 5 true) 1 "a"
      = unreadOf dbC2 1 "a"
    ∧ unreadOf (markRead dbC2 "b" 1 9).1 1 "b" = 0
    ∧ unreadOf (markRead dbC2 "b" 1 9).1 1 "a" = unreadOf dbC2 1 "a" :=
  have h := unread_counters_send_markRead dbC2 ⟨1, "b", "yo", "text"⟩ "a" 5
    ⟨1, ["a", "b"], none, [("a", 0), ("b", 1)], false, none, 0, 0⟩ (by decide)
    (by decide) dbC2 "b" 1 9
    ⟨1, ["a", "b"], none, [("a", 0), ("b", 1)], false, none, 0, 0⟩ (by decide)
  ⟨h.1, h.2.1, h.2.2.1, h.2.2.2.1 "a" (by decide)⟩

end Matrimony
